import Mathlib

/-!
Shallow embedding of the label detection and normalization pipeline of
crop-this-label (src/src/App.jsx), together with theorems checking the
specification claims against it.

Conventions used throughout:
* Pixel counts and rectangle coordinates are natural numbers.  JavaScript
  floating-point arithmetic on ratios and thresholds is modelled by exact
  rational arithmetic over ℚ; all threshold literals of the source (0.01,
  0.99, 0.2, 4.0, 0.4, 2.5) are exactly representable as rationals.
* Fallible code is modelled with Except.
* External library behaviour reached by the source is modelled from the
  corresponding library contract and noted at each definition
  (cv.rotate, cv.resize, cv.boundingRect, canvas getImageData,
  ECMAScript Array.prototype.sort stability).
-/

/-- A pixel raster (models an OpenCV Mat or a canvas bitmap): width, height
and a pixel lookup, where pix x y is the value at column x, row y. -/
structure Image where
  width : Nat
  height : Nat
  pix : Nat → Nat → Nat

/-- Axis-aligned rectangle, as produced by cv.boundingRect and cv.Rect. -/
structure Rect where
  x : Nat
  y : Nat
  width : Nat
  height : Nat
  deriving DecidableEq

/-- Candidate region: a bounding rectangle together with its area
(rect.width * rect.height), exactly the object pushed at App.jsx
line 290: candidates.push({ area, rect }). -/
structure Candidate where
  area : Nat
  rect : Rect
  deriving DecidableEq

/-- Pipeline configuration, mirroring the CONFIG object (App.jsx lines
28-34).  Field names follow spec section 6; the corresponding source
constant names are TARGET_WIDTH, TARGET_HEIGHT, MIN_AREA_RATIO,
MAX_AREA_RATIO. -/
structure Config where
  targetWidth : Nat
  targetHeight : Nat
  minAreaRatio : ℚ
  maxAreaRatio : ℚ
  deriving DecidableEq

/-- The CONFIG constant of App.jsx lines 28-34. -/
def CONFIG : Config := ⟨1200, 1800, 0.01, 0.99⟩

/-- Errors a run can end with, following the taxonomy of spec section 7.
noLabelDetected models the exception thrown at App.jsx line 309
(new Error with the no-shipping-label message); invalidInput models the
IndexSizeError that ctx.getImageData (App.jsx line 245) throws when the
canvas width or height is zero, per the HTML canvas specification. -/
inductive ProcessError
  | noLabelDetected
  | invalidInput
  deriving DecidableEq

/-- The per-contour filter of the extraction loop (App.jsx lines 274-291):
compute area = rect.width * rect.height, discard the rectangle when the
area filter (line 280) or the aspect-ratio filter (lines 285-287)
rejects it, otherwise produce the candidate pushed at line 290. -/
def filterRect (cfg : Config) (totalArea : Nat) (rect : Rect) : Option Candidate :=
  let area := rect.width * rect.height
  if (area : ℚ) < (totalArea : ℚ) * cfg.minAreaRatio ∨
      (area : ℚ) > (totalArea : ℚ) * cfg.maxAreaRatio then
    none
  else
    let ratio : ℚ := (rect.width : ℚ) / (rect.height : ℚ)
    if ratio < 0.2 ∨ ratio > 4.0 then
      none
    else
      some ⟨area, rect⟩

/-- The candidate list built by the loop at App.jsx lines 271-291, in
contour-extraction order (push preserves order, so filterMap does too). -/
def extractCandidates (cfg : Config) (totalArea : Nat) (rects : List Rect) :
    List Candidate :=
  rects.filterMap (filterRect cfg totalArea)

/-- Candidate resolution including the fallback (App.jsx lines 296-311):
when no candidate survived the filters, check the page ratio
src.cols / src.rows; inside the open window (0.4, 2.5) synthesize a
whole-page candidate of area totalArea (lines 303-304), otherwise throw
(line 309).  The let-bound totalArea of line 272 is inlined. -/
def resolveCandidates (cfg : Config) (w h : Nat) (rects : List Rect) :
    Except ProcessError (List Candidate) :=
  if (extractCandidates cfg (w * h) rects).isEmpty then
    if 0.4 < (w : ℚ) / (h : ℚ) ∧ (w : ℚ) / (h : ℚ) < 2.5 then
      Except.ok [⟨w * h, ⟨0, 0, w, h⟩⟩]
    else
      Except.error ProcessError.noLabelDetected
  else
    Except.ok (extractCandidates cfg (w * h) rects)

/-- Stable insertion used to model candidates.sort((a, b) => b.area - a.area)
at App.jsx line 313.  ECMAScript Array.prototype.sort is stable, and with
this consistent comparator it produces the unique stable descending
order by area; a stable insertion sort produces the same list. -/
def insertByAreaDesc (c : Candidate) : List Candidate → List Candidate
  | [] => [c]
  | d :: ds => if c.area ≥ d.area then c :: d :: ds else d :: insertByAreaDesc c ds

/-- Stable descending sort by area, modelling App.jsx line 313. -/
def sortByAreaDesc (l : List Candidate) : List Candidate :=
  l.foldr insertByAreaDesc []

/-- Selection (App.jsx lines 313-314): sort descending by area and take
candidates[0]; the empty case (undefined in JavaScript) is none. -/
def selectBest (l : List Candidate) : Option Candidate :=
  (sortByAreaDesc l).head?

/-- The selection rule as the spec words it (spec section 4.3): the
candidate with the greatest area, ties broken by extraction order with
first-found winning; a later candidate replaces an earlier one only when
its area is strictly greater. -/
def firstMaxByArea : List Candidate → Option Candidate
  | [] => none
  | c :: cs =>
    match firstMaxByArea cs with
    | none => some c
    | some d => some (if d.area > c.area then d else c)

/-- cv.rotate with cv.ROTATE_90_CLOCKWISE: the dimensions swap and pixel
(x, y) of the result is pixel (y, height - 1 - x) of the source. -/
def rot90CW (img : Image) : Image :=
  ⟨img.height, img.width, fun x y => img.pix y (img.height - 1 - x)⟩

/-- cv.rotate with cv.ROTATE_90_COUNTERCLOCKWISE: the dimensions swap and
pixel (x, y) of the result is pixel (width - 1 - y, x) of the source. -/
def rot90CCW (img : Image) : Image :=
  ⟨img.height, img.width, fun x y => img.pix (img.width - 1 - y) x⟩

/-- Direction argument of handleRotate (App.jsx line 163). -/
inductive Direction
  | left
  | right
  deriving DecidableEq

/-- The pure rotation performed by handleRotate (App.jsx lines 176-178):
left selects cv.ROTATE_90_COUNTERCLOCKWISE, anything else selects
cv.ROTATE_90_CLOCKWISE. -/
def rotateImage (d : Direction) (img : Image) : Image :=
  match d with
  | Direction.left => rot90CCW img
  | Direction.right => rot90CW img

/-- Orientation fix (App.jsx lines 319-325): rotate the cropped region 90
degrees clockwise when it is wider than tall, otherwise leave it alone. -/
def normalizeOrientation (roi : Image) : Image :=
  if roi.width > roi.height then rot90CW roi else roi

/-- src.roi(bestRect) at App.jsx line 317: the sub-image of the page at the
given rectangle. -/
def cropImage (img : Image) (r : Rect) : Image :=
  ⟨r.width, r.height, fun x y => img.pix (r.x + x) (r.y + y)⟩

/-- cv.resize(roi, final, finalSize, 0, 0, cv.INTER_LANCZOS4) at App.jsx
line 330: the output Mat has exactly the requested size.  The resampled
pixel content is modelled by an index remapping, since only the output
dimensions are observed by the properties below (an exact Lanczos kernel
is floating-point convolution, outside the integer model). -/
def resize (img : Image) (w h : Nat) : Image :=
  ⟨w, h, fun x y => img.pix (x * img.width / w) (y * img.height / h)⟩

/-- BestRegion selection for one run of processImage (App.jsx lines
224-314): the zero-size guard models ctx.getImageData (line 245)
throwing IndexSizeError on a zero-width or zero-height canvas, which
rejects the run before any detection; then candidates are resolved
(including the fallback) and the best one is picked. -/
def bestRegionOf (cfg : Config) (img : Image) (rects : List Rect) :
    Except ProcessError Candidate :=
  if img.width = 0 ∨ img.height = 0 then
    Except.error ProcessError.invalidInput
  else
    match resolveCandidates cfg img.width img.height rects with
    | Except.error e => Except.error e
    | Except.ok cands =>
      match selectBest cands with
      | none => Except.error ProcessError.noLabelDetected
      | some best => Except.ok best

/-- One full run of processImage (App.jsx lines 224-349) given the contour
bounding rectangles the vision library extracted from the mask: select
the best region, crop it (line 317), fix the orientation (lines
319-325) and resize to the configured target size (lines 327-330). -/
def processImage (cfg : Config) (img : Image) (rects : List Rect) :
    Except ProcessError Image :=
  match bestRegionOf cfg img rects with
  | Except.error e => Except.error e
  | Except.ok best =>
    Except.ok (resize (normalizeOrientation (cropImage img best.rect))
      cfg.targetWidth cfg.targetHeight)

/-- Run status as stored in the status state variable (App.jsx line 19). -/
inductive Status
  | loading
  | ready
  | processing
  | success
  | error
  deriving DecidableEq

/-- Which handler performed a status write: reset (App.jsx line 92),
handleFileUpload (lines 98-128) or handleRotate (lines 163-190). -/
inductive Op
  | resetOp
  | uploadOp
  | rotateOp
  deriving DecidableEq

/-- Caller-visible operations once the app is initialized: a file upload
that ends with a processed image or with a failure, a manual rotation,
and an explicit reset. -/
inductive Ev
  | upload (res : Option Image)
  | rotate (d : Direction)
  | resetEv

/-- The observable component of the React state relevant to the run state
machine: the status together with the retained processed image. -/
structure AppState where
  status : Status
  processedImage : Option Image

/-- State after initialization (App.jsx lines 76-81): status ready, no
processed image. -/
def initAppState : AppState := ⟨Status.ready, none⟩

/-- The sequence of status writes one event produces, each labelled with
the operation performing it.  upload: reset writes ready (line 92 via
the reset() call at line 102), then processing (line 104), then success
(line 340) or error (line 125).  rotate: nothing when no processed image
exists (guard at line 164); otherwise processing (line 167) followed by
the saved old status (lines 166 and 185).  reset: ready (line 92). -/
def stepWrites (s : AppState) : Ev → List (Status × Op)
  | Ev.upload (some _) =>
    [(Status.ready, Op.resetOp), (Status.processing, Op.uploadOp),
      (Status.success, Op.uploadOp)]
  | Ev.upload none =>
    [(Status.ready, Op.resetOp), (Status.processing, Op.uploadOp),
      (Status.error, Op.uploadOp)]
  | Ev.rotate _ =>
    if s.processedImage.isSome then
      [(Status.processing, Op.rotateOp), (s.status, Op.rotateOp)]
    else
      []
  | Ev.resetEv => [(Status.ready, Op.resetOp)]

/-- The state after an event completes.  upload replaces the processed
image by the run result and ends in success or error; rotate replaces
the processed image by its rotation and restores the old status (App.jsx
lines 166, 181, 185); reset clears everything (lines 88-95). -/
def stepState (s : AppState) : Ev → AppState
  | Ev.upload (some img) => ⟨Status.success, some img⟩
  | Ev.upload none => ⟨Status.error, none⟩
  | Ev.rotate d =>
    match s.processedImage with
    | none => s
    | some img => ⟨s.status, some (rotateImage d img)⟩
  | Ev.resetEv => ⟨Status.ready, none⟩

/-- All labelled status writes produced by a sequence of events. -/
def traceFrom (s : AppState) : List Ev → List (Status × Op)
  | [] => []
  | e :: evs => stepWrites s e ++ traceFrom (stepState s e) evs

/-- chainOK allowed a l holds when every adjacent pair of the status
sequence a :: l is either a repeated status (no observable transition)
or a transition the relation allows. -/
def chainOK (allowed : Status → Status → Bool) : Status → List Status → Bool
  | _, [] => true
  | a, b :: l => (a == b || allowed a b) && chainOK allowed b l

/-- The transition relation claim C6 asserts: ready to processing,
processing to success or error, and success or error back to ready
(the latter only via reset, which is checked separately). -/
def claimAllowedC6 (a b : Status) : Bool :=
  (a == Status.ready && b == Status.processing) ||
  (a == Status.processing && (b == Status.success || b == Status.error)) ||
  ((a == Status.success || a == Status.error) && b == Status.ready)

/-- The transition relation the code actually satisfies: everything claim
C6 allows, plus the success-to-processing excursion the manual rotate
operation performs while a processed image exists. -/
def extAllowedC6 (a b : Status) : Bool :=
  claimAllowedC6 a b || (a == Status.success && b == Status.processing)

/-- Every write of status ready in the trace was performed by reset. -/
def readyOnlyByReset (l : List (Status × Op)) : Bool :=
  l.all fun p => !(p.1 == Status.ready) || (p.2 == Op.resetOp)

/-- Sample 1000 by 1400 page (spec section 8, scenario 3). -/
def pageImage : Image := ⟨1000, 1400, fun _ _ => 0⟩

/-- Sample zero-width raster. -/
def zeroImage : Image := ⟨0, 800, fun _ _ => 0⟩

/-- Sample landscape crop, wider than tall. -/
def wideRoi : Image := ⟨30, 20, fun _ _ => 0⟩

/-- The output of the successful fallback run on pageImage. -/
def sampleOut : Image :=
  resize (normalizeOrientation (cropImage pageImage ⟨0, 0, 1000, 1400⟩)) 1200 1800

/-- Three candidates with a tie on the greatest area. -/
def tieList : List Candidate :=
  [⟨5, ⟨0, 0, 1, 5⟩⟩, ⟨7, ⟨2, 0, 1, 7⟩⟩, ⟨7, ⟨4, 0, 7, 1⟩⟩]

/-- The earliest candidate of greatest area in tieList. -/
def tieBest : Candidate := ⟨7, ⟨2, 0, 1, 7⟩⟩

/-! Theorems about the embedding, settling the specification claims. -/

/-- Evaluation of the fallback run on the sample page: the whole page
becomes the best region. -/
theorem pageImage_bestRegion :
    bestRegionOf CONFIG pageImage [] =
      Except.ok ⟨1000 * 1400, ⟨0, 0, 1000, 1400⟩⟩ := by
  unfold bestRegionOf
  rw [if_neg (by norm_num [pageImage])]
  have h : resolveCandidates CONFIG pageImage.width pageImage.height [] =
      Except.ok [⟨1000 * 1400, ⟨0, 0, 1000, 1400⟩⟩] := by
    unfold resolveCandidates
    rw [if_pos (by rfl), if_pos (by norm_num [pageImage])]
    rfl
  rw [h]
  rfl

/-- Evaluation of the full pipeline on the sample page. -/
theorem pageImage_processed :
    processImage CONFIG pageImage [] = Except.ok sampleOut := by
  unfold processImage
  rw [pageImage_bestRegion]
  rfl

/-- Claim C3: for every successful run, the produced output image has
width exactly the configured targetWidth and height exactly the
configured targetHeight, and the defaults are 1200 and 1800. -/
theorem c3_output_dims (cfg : Config) (img : Image) (rects : List Rect)
    (out : Image) (hrun : processImage cfg img rects = Except.ok out) :
    out.width = cfg.targetWidth ∧ out.height = cfg.targetHeight ∧
    CONFIG.targetWidth = 1200 ∧ CONFIG.targetHeight = 1800 := by
  unfold processImage at hrun
  cases hb : bestRegionOf cfg img rects with
  | error e => rw [hb] at hrun; exact Except.noConfusion hrun
  | ok best =>
    rw [hb] at hrun
    injection hrun with hout
    subst hout
    exact ⟨rfl, rfl, rfl, rfl⟩

/-- Witness for C3: a concrete successful run whose output is 1200 by
1800. -/
theorem c3_output_dims_witness :
    sampleOut.width = CONFIG.targetWidth ∧
    sampleOut.height = CONFIG.targetHeight ∧
    CONFIG.targetWidth = 1200 ∧ CONFIG.targetHeight = 1800 :=
  c3_output_dims CONFIG pageImage [] sampleOut pageImage_processed

/-- Claim C4: if the selected crop is strictly wider than tall it is
rotated exactly 90 degrees clockwise, so its dimensions are swapped and
height is at least width afterwards; if width is at most height the crop
is passed on unchanged. -/
theorem c4_orientation (roi : Image) :
    (roi.width > roi.height →
      normalizeOrientation roi = rot90CW roi ∧
      (normalizeOrientation roi).width = roi.height ∧
      (normalizeOrientation roi).height = roi.width ∧
      (normalizeOrientation roi).width ≤ (normalizeOrientation roi).height) ∧
    (roi.width ≤ roi.height → normalizeOrientation roi = roi) := by
  constructor
  · intro h
    unfold normalizeOrientation
    rw [if_pos h]
    exact ⟨rfl, rfl, rfl, Nat.le_of_lt h⟩
  · intro h
    unfold normalizeOrientation
    rw [if_neg (Nat.not_lt.mpr h)]

/-- Witness for C4 at a concrete landscape crop. -/
theorem c4_orientation_witness :
    normalizeOrientation wideRoi = rot90CW wideRoi ∧
    (normalizeOrientation wideRoi).width = wideRoi.height ∧
    (normalizeOrientation wideRoi).height = wideRoi.width ∧
    (normalizeOrientation wideRoi).width ≤ (normalizeOrientation wideRoi).height :=
  (c4_orientation wideRoi).1 (by decide)

/-- Claim C7: rotating the processed image left and then right restores
the original pixel dimensions, and the two rotations compose exactly as
the state machine applies them, with no detection re-run involved. -/
theorem c7_rotate_dims (img : Image) :
    (rotateImage Direction.right (rotateImage Direction.left img)).width = img.width ∧
    (rotateImage Direction.right (rotateImage Direction.left img)).height = img.height ∧
    (stepState (stepState ⟨Status.success, some img⟩ (Ev.rotate Direction.left))
        (Ev.rotate Direction.right)).processedImage =
      some (rotateImage Direction.right (rotateImage Direction.left img)) :=
  ⟨rfl, rfl, rfl⟩

/-- Claim C8: a zero-area raster image makes the run fail with the
invalid-input precondition error, and no output image is produced. -/
theorem c8_zero_area (cfg : Config) (img : Image) (rects : List Rect)
    (h : img.width = 0 ∨ img.height = 0) :
    bestRegionOf cfg img rects = Except.error ProcessError.invalidInput ∧
    processImage cfg img rects = Except.error ProcessError.invalidInput := by
  have hb : bestRegionOf cfg img rects = Except.error ProcessError.invalidInput := by
    unfold bestRegionOf
    rw [if_pos h]
  refine ⟨hb, ?_⟩
  unfold processImage
  rw [hb]

/-- Witness for C8 at a concrete zero-width image. -/
theorem c8_zero_area_witness :
    bestRegionOf CONFIG zeroImage [] = Except.error ProcessError.invalidInput ∧
    processImage CONFIG zeroImage [] = Except.error ProcessError.invalidInput :=
  c8_zero_area CONFIG zeroImage [] (Or.inl rfl)

/-- Claim C9: the pipeline is a pure function of the raster image, the
extracted contour rectangles and the configuration: two runs on equal
inputs select the same best region and produce the same result; there is
no other state the selection reads. -/
theorem c9_deterministic (cfg : Config) (img1 img2 : Image)
    (r1 r2 : List Rect) (himg : img1 = img2) (hr : r1 = r2) :
    bestRegionOf cfg img1 r1 = bestRegionOf cfg img2 r2 ∧
    processImage cfg img1 r1 = processImage cfg img2 r2 := by
  subst himg
  subst hr
  exact ⟨rfl, rfl⟩

/-- Witness for C9: two runs on the sample page agree. -/
theorem c9_deterministic_witness :
    bestRegionOf CONFIG pageImage [] = bestRegionOf CONFIG pageImage [] ∧
    processImage CONFIG pageImage [] = processImage CONFIG pageImage [] :=
  c9_deterministic CONFIG pageImage pageImage [] [] rfl rfl

/-- Claim C10: when no processed image exists, the manual rotate handler
returns at its guard: the state is unchanged and no status write (nor
any other effect) happens. -/
theorem c10_rotate_noop (s : AppState) (d : Direction)
    (h : s.processedImage = none) :
    stepState s (Ev.rotate d) = s ∧ stepWrites s (Ev.rotate d) = [] := by
  obtain ⟨st, pi⟩ := s
  simp only at h
  subst h
  exact ⟨rfl, rfl⟩

/-- Witness for C10 at the initial state. -/
theorem c10_rotate_noop_witness :
    stepState initAppState (Ev.rotate Direction.left) = initAppState ∧
    stepWrites initAppState (Ev.rotate Direction.left) = [] :=
  c10_rotate_noop initAppState Direction.left rfl

/-- Head of a stable descending insertion: the inserted element wins
exactly when its area is at least the area of the previous head. -/
theorem head_insertByAreaDesc (c : Candidate) (l : List Candidate) :
    (insertByAreaDesc c l).head? =
      some (match l.head? with
            | none => c
            | some d => if c.area ≥ d.area then c else d) := by
  cases l with
  | nil => rfl
  | cons d ds =>
    by_cases h : c.area ≥ d.area
    · simp [insertByAreaDesc, h]
    · simp [insertByAreaDesc, h]

/-- The head of the stable descending sort is the first candidate of
greatest area. -/
theorem selectBest_eq_firstMaxByArea (l : List Candidate) :
    selectBest l = firstMaxByArea l := by
  induction l with
  | nil => rfl
  | cons c cs ih =>
    show (insertByAreaDesc c (sortByAreaDesc cs)).head? = _
    rw [head_insertByAreaDesc]
    have hs : (sortByAreaDesc cs).head? = firstMaxByArea cs := ih
    rw [hs]
    cases hfm : firstMaxByArea cs with
    | none => simp [firstMaxByArea, hfm]
    | some d =>
      simp only [firstMaxByArea, hfm]
      by_cases h : d.area > c.area
      · rw [if_neg (by omega), if_pos h]
      · rw [if_pos (by omega), if_neg h]

/-- firstMaxByArea returns an element of the list. -/
theorem firstMaxByArea_mem (l : List Candidate) (c : Candidate)
    (h : firstMaxByArea l = some c) : c ∈ l := by
  induction l generalizing c with
  | nil => exact Option.noConfusion h
  | cons a as ih =>
    simp only [firstMaxByArea] at h
    cases hfm : firstMaxByArea as with
    | none =>
      rw [hfm] at h
      injection h with h
      subst h
      exact List.mem_cons_self a as
    | some d =>
      rw [hfm] at h
      injection h with h
      by_cases hd : d.area > a.area
      · rw [if_pos hd] at h
        subst h
        exact List.mem_cons_of_mem a (ih d hfm)
      · rw [if_neg hd] at h
        subst h
        exact List.mem_cons_self a as

/-- firstMaxByArea returns a candidate of maximal area. -/
theorem firstMaxByArea_maximal (l : List Candidate) (c : Candidate)
    (h : firstMaxByArea l = some c) : ∀ d ∈ l, d.area ≤ c.area := by
  induction l generalizing c with
  | nil => exact Option.noConfusion h
  | cons a as ih =>
    intro d hd
    simp only [firstMaxByArea] at h
    cases hfm : firstMaxByArea as with
    | none =>
      have : as = [] := by
        cases as with
        | nil => rfl
        | cons b bs =>
          simp only [firstMaxByArea] at hfm
          cases h2 : firstMaxByArea bs <;> rw [h2] at hfm <;> exact Option.noConfusion hfm
      subst this
      rw [hfm] at h
      injection h with h
      subst h
      rcases List.mem_singleton.mp hd with rfl
      exact le_refl _
    | some m =>
      rw [hfm] at h
      injection h with h
      rcases List.mem_cons.mp hd with rfl | hmem
      · by_cases hm : m.area > d.area
        · rw [if_pos hm] at h; subst h; omega
        · rw [if_neg hm] at h; subst h; exact le_refl _
      · have hle := ih m hfm d hmem
        by_cases hm : m.area > a.area
        · rw [if_pos hm] at h; subst h; exact hle
        · rw [if_neg hm] at h; subst h; omega

/-- Claim C5: the selected best region is the first candidate, in
extraction order, whose area is greatest: the stable sort plus
candidates[0] implements exactly the first-found-wins greatest-area
rule, and the selected candidate belongs to the list with maximal
area. -/
theorem c5_selection (l : List Candidate) :
    selectBest l = firstMaxByArea l ∧
    (∀ c : Candidate, selectBest l = some c →
      c ∈ l ∧ ∀ d ∈ l, d.area ≤ c.area) := by
  refine ⟨selectBest_eq_firstMaxByArea l, ?_⟩
  intro c hc
  rw [selectBest_eq_firstMaxByArea] at hc
  exact ⟨firstMaxByArea_mem l c hc, firstMaxByArea_maximal l c hc⟩

/-- Witness for C5 on a concrete tie: the earliest of the two greatest
candidates is selected. -/
theorem c5_selection_witness :
    selectBest tieList = firstMaxByArea tieList ∧ tieBest ∈ tieList :=
  ⟨(c5_selection tieList).1,
    ((c5_selection tieList).2 tieBest rfl).1⟩

/-- Claim C1: with a page of nonzero size, the fallback fires exactly when
the filtered candidate list is empty and the page ratio lies strictly
between 0.4 and 2.5, in which case the whole page becomes the best
region; with an empty candidate list and a ratio outside that open
window the run fails with the no-label-detected error and produces no
region; and when the candidate list is nonempty the resolved candidates
are exactly the filtered ones, so no fallback region is synthesized. -/
theorem c1_fallback_iff (cfg : Config) (img : Image) (rects : List Rect)
    (hw : 0 < img.width) (hh : 0 < img.height) :
    (extractCandidates cfg (img.width * img.height) rects = [] →
      ((0.4 < (img.width : ℚ) / (img.height : ℚ) ∧
          (img.width : ℚ) / (img.height : ℚ) < 2.5) →
        bestRegionOf cfg img rects =
          Except.ok ⟨img.width * img.height, ⟨0, 0, img.width, img.height⟩⟩) ∧
      (¬ (0.4 < (img.width : ℚ) / (img.height : ℚ) ∧
          (img.width : ℚ) / (img.height : ℚ) < 2.5) →
        bestRegionOf cfg img rects = Except.error ProcessError.noLabelDetected ∧
        processImage cfg img rects = Except.error ProcessError.noLabelDetected)) ∧
    (extractCandidates cfg (img.width * img.height) rects ≠ [] →
      resolveCandidates cfg img.width img.height rects =
        Except.ok (extractCandidates cfg (img.width * img.height) rects)) := by
  have hz : ¬ (img.width = 0 ∨ img.height = 0) := by omega
  constructor
  · intro hemp
    have hempb : (extractCandidates cfg (img.width * img.height) rects).isEmpty = true := by
      rw [hemp]; rfl
    constructor
    · intro hwin
      have hres : resolveCandidates cfg img.width img.height rects =
          Except.ok [⟨img.width * img.height, ⟨0, 0, img.width, img.height⟩⟩] := by
        unfold resolveCandidates
        rw [if_pos hempb, if_pos hwin]
      unfold bestRegionOf
      rw [if_neg hz, hres]
      rfl
    · intro hwin
      have hres : resolveCandidates cfg img.width img.height rects =
          Except.error ProcessError.noLabelDetected := by
        unfold resolveCandidates
        rw [if_pos hempb, if_neg hwin]
      have hb : bestRegionOf cfg img rects = Except.error ProcessError.noLabelDetected := by
        unfold bestRegionOf
        rw [if_neg hz, hres]
      refine ⟨hb, ?_⟩
      unfold processImage
      rw [hb]
  · intro hne
    have hempb : (extractCandidates cfg (img.width * img.height) rects).isEmpty = false := by
      cases hc : extractCandidates cfg (img.width * img.height) rects with
      | nil => exact absurd hc hne
      | cons a as => rfl
    unfold resolveCandidates
    rw [if_neg (by rw [hempb]; exact Bool.false_ne_true)]

/-- Witness for C1: the fallback run on the sample 1000 by 1400 page. -/
theorem c1_fallback_iff_witness :
    bestRegionOf CONFIG pageImage [] =
      Except.ok ⟨pageImage.width * pageImage.height,
        ⟨0, 0, pageImage.width, pageImage.height⟩⟩ :=
  ((c1_fallback_iff CONFIG pageImage [] (by decide) (by decide)).1 rfl).1
    (by norm_num [pageImage])

/-- Claim C2 counterexample: on a 1000 by 1400 page with no surviving
contour candidate the fallback synthesizes the whole page, that
candidate is selected as the best region, and its area 1400000 violates
the upper area bound area less-or-equal maxAreaRatio times the total
page area (0.99 times 1400000). -/
theorem c2_bounds_counterexample :
    bestRegionOf CONFIG pageImage [] =
      Except.ok ⟨1000 * 1400, ⟨0, 0, 1000, 1400⟩⟩ ∧
    ¬ (((1000 * 1400 : Nat) : ℚ) ≤
        (((1000 : Nat) * 1400 : Nat) : ℚ) * CONFIG.maxAreaRatio) :=
  ⟨pageImage_bestRegion, by norm_num [CONFIG]⟩

/-- Claim C2 amended: every candidate produced by the contour filter
satisfies both area bounds and the aspect bounds; the candidate
synthesized by the fallback satisfies the aspect bound (its ratio lies
in the open window (0.4, 2.5), inside [0.2, 4.0]) but its area equals
the total page area, which strictly exceeds maxAreaRatio times the
total page area on any page of nonzero area, so the upper area bound
does not extend to the fallback candidate. -/
theorem c2_bounds_amended :
    (∀ (totalArea : Nat) (rects : List Rect) (c : Candidate),
      c ∈ extractCandidates CONFIG totalArea rects →
      (totalArea : ℚ) * CONFIG.minAreaRatio ≤ (c.area : ℚ) ∧
      (c.area : ℚ) ≤ (totalArea : ℚ) * CONFIG.maxAreaRatio ∧
      (0.2 : ℚ) ≤ (c.rect.width : ℚ) / (c.rect.height : ℚ) ∧
      (c.rect.width : ℚ) / (c.rect.height : ℚ) ≤ 4.0) ∧
    (∀ (w h : Nat) (rects : List Rect),
      0 < w → 0 < h →
      extractCandidates CONFIG (w * h) rects = [] →
      0.4 < (w : ℚ) / (h : ℚ) → (w : ℚ) / (h : ℚ) < 2.5 →
      resolveCandidates CONFIG w h rects = Except.ok [⟨w * h, ⟨0, 0, w, h⟩⟩] ∧
      (0.2 : ℚ) ≤ (w : ℚ) / (h : ℚ) ∧ (w : ℚ) / (h : ℚ) ≤ 4.0 ∧
      ((w * h : Nat) : ℚ) * CONFIG.maxAreaRatio < ((w * h : Nat) : ℚ)) := by
  constructor
  · intro totalArea rects c hc
    simp only [extractCandidates, List.mem_filterMap] at hc
    obtain ⟨r, _, hfr⟩ := hc
    simp only [filterRect] at hfr
    split_ifs at hfr with h1 h2
    injection hfr with hfr
    subst hfr
    push_neg at h1 h2
    exact ⟨h1.1, h1.2, h2.1, h2.2⟩
  · intro w h rects hw hh hemp h1 h2
    have hres : resolveCandidates CONFIG w h rects =
        Except.ok [⟨w * h, ⟨0, 0, w, h⟩⟩] := by
      unfold resolveCandidates
      rw [if_pos (by rw [hemp]; rfl), if_pos ⟨h1, h2⟩]
    have hpos : (0 : ℚ) < ((w * h : Nat) : ℚ) := by
      have : 0 < w * h := Nat.mul_pos hw hh
      exact_mod_cast this
    refine ⟨hres, by linarith, by linarith, ?_⟩
    have h99 : CONFIG.maxAreaRatio = 0.99 := rfl
    rw [h99]
    nlinarith

/-- Witness for the amended C2: a concrete fallback run on a 1000 by 1400
page where the synthesized candidate passes the aspect bound and
violates the upper area bound. -/
theorem c2_bounds_amended_witness :
    resolveCandidates CONFIG 1000 1400 [] =
      Except.ok [⟨1000 * 1400, ⟨0, 0, 1000, 1400⟩⟩] ∧
    (0.2 : ℚ) ≤ (1000 : ℚ) / (1400 : ℚ) ∧ (1000 : ℚ) / (1400 : ℚ) ≤ 4.0 ∧
    ((1000 * 1400 : Nat) : ℚ) * CONFIG.maxAreaRatio < ((1000 * 1400 : Nat) : ℚ) := by
  have := c2_bounds_amended.2 1000 1400 [] (by decide) (by decide) rfl
    (by norm_num) (by norm_num)
  exact_mod_cast this

/-- Unfolding step for chainOK over a cons cell. -/
theorem chainOK_cons_true (f : Status → Status → Bool) (a b : Status)
    (l : List Status) (h1 : (a == b || f a b) = true)
    (h2 : chainOK f b l = true) : chainOK f a (b :: l) = true := by
  show ((a == b || f a b) && chainOK f b l) = true
  rw [h1, h2]
  rfl

/-- readyOnlyByReset distributes over append. -/
theorem readyOnlyByReset_append (l1 l2 : List (Status × Op)) :
    readyOnlyByReset (l1 ++ l2) =
      (readyOnlyByReset l1 && readyOnlyByReset l2) :=
  List.all_append

/-- Status-write soundness of the event system: starting from any state
whose status is ready, success or error and whose retained processed
image can only exist in the success status, every adjacent pair of
observed statuses is either a repetition or a transition allowed by the
amended relation, and every write of ready is performed by reset. -/
theorem traceFrom_ok (evs : List Ev) : ∀ (s : AppState),
    (s.processedImage.isSome = true → s.status = Status.success) →
    (s.status = Status.ready ∨ s.status = Status.success ∨ s.status = Status.error) →
    chainOK extAllowedC6 s.status ((traceFrom s evs).map Prod.fst) = true ∧
    readyOnlyByReset (traceFrom s evs) = true := by
  induction evs with
  | nil => exact fun s _ _ => ⟨rfl, rfl⟩
  | cons e evs ih =>
    intro s hinv hst
    have hready : (s.status == Status.ready || extAllowedC6 s.status Status.ready) = true := by
      rcases hst with h | h | h <;> rw [h] <;> rfl
    cases e with
    | upload res =>
      cases res with
      | some img =>
        have hnext := ih ⟨Status.success, some img⟩ (fun _ => rfl) (Or.inr (Or.inl rfl))
        refine ⟨?_, ?_⟩
        · exact chainOK_cons_true _ _ _ _ hready
            (chainOK_cons_true _ _ _ _ rfl
              (chainOK_cons_true _ _ _ _ rfl hnext.1))
        · show readyOnlyByReset
            (stepWrites s (Ev.upload (some img)) ++
              traceFrom (stepState s (Ev.upload (some img))) evs) = true
          rw [readyOnlyByReset_append, Bool.and_eq_true]
          exact ⟨rfl, hnext.2⟩
      | none =>
        have hnext := ih ⟨Status.error, none⟩ (fun h => nomatch h) (Or.inr (Or.inr rfl))
        refine ⟨?_, ?_⟩
        · exact chainOK_cons_true _ _ _ _ hready
            (chainOK_cons_true _ _ _ _ rfl
              (chainOK_cons_true _ _ _ _ rfl hnext.1))
        · show readyOnlyByReset
            (stepWrites s (Ev.upload none) ++
              traceFrom (stepState s (Ev.upload none)) evs) = true
          rw [readyOnlyByReset_append, Bool.and_eq_true]
          exact ⟨rfl, hnext.2⟩
    | rotate d =>
      cases hp : s.processedImage with
      | none =>
        have hw : stepWrites s (Ev.rotate d) = [] := by
          show (if s.processedImage.isSome then
              [(Status.processing, Op.rotateOp), (s.status, Op.rotateOp)]
            else []) = []
          rw [hp]
          rfl
        have hs2 : stepState s (Ev.rotate d) = s := by
          show (match s.processedImage with
            | none => s
            | some img => (⟨s.status, some (rotateImage d img)⟩ : AppState)) = s
          rw [hp]
        have hnext := ih s hinv hst
        constructor
        · show chainOK extAllowedC6 s.status
            ((stepWrites s (Ev.rotate d) ++
              traceFrom (stepState s (Ev.rotate d)) evs).map Prod.fst) = true
          rw [hw, hs2, List.nil_append]
          exact hnext.1
        · show readyOnlyByReset
            (stepWrites s (Ev.rotate d) ++
              traceFrom (stepState s (Ev.rotate d)) evs) = true
          rw [hw, hs2, List.nil_append]
          exact hnext.2
      | some img =>
        have hs : s.status = Status.success := hinv (by rw [hp]; rfl)
        have hw : stepWrites s (Ev.rotate d) =
            [(Status.processing, Op.rotateOp), (Status.success, Op.rotateOp)] := by
          show (if s.processedImage.isSome then
              [(Status.processing, Op.rotateOp), (s.status, Op.rotateOp)]
            else []) = _
          rw [hp, hs]
          rfl
        have hs2 : stepState s (Ev.rotate d) =
            ⟨Status.success, some (rotateImage d img)⟩ := by
          show (match s.processedImage with
            | none => s
            | some i => (⟨s.status, some (rotateImage d i)⟩ : AppState)) = _
          rw [hp, hs]
        have hnext := ih ⟨Status.success, some (rotateImage d img)⟩
          (fun _ => rfl) (Or.inr (Or.inl rfl))
        constructor
        · show chainOK extAllowedC6 s.status
            ((stepWrites s (Ev.rotate d) ++
              traceFrom (stepState s (Ev.rotate d)) evs).map Prod.fst) = true
          rw [hw, hs2, hs]
          exact chainOK_cons_true _ _ _ _ rfl
            (chainOK_cons_true _ _ _ _ rfl hnext.1)
        · show readyOnlyByReset
            (stepWrites s (Ev.rotate d) ++
              traceFrom (stepState s (Ev.rotate d)) evs) = true
          rw [hw, hs2, readyOnlyByReset_append, Bool.and_eq_true]
          exact ⟨rfl, hnext.2⟩
    | resetEv =>
      have hnext := ih ⟨Status.ready, none⟩ (fun h => nomatch h) (Or.inl rfl)
      refine ⟨?_, ?_⟩
      · exact chainOK_cons_true _ _ _ _ hready hnext.1
      · show readyOnlyByReset
          (stepWrites s Ev.resetEv ++ traceFrom (stepState s Ev.resetEv) evs) = true
        rw [readyOnlyByReset_append, Bool.and_eq_true]
        exact ⟨rfl, hnext.2⟩

/-- Claim C6 counterexample: the concrete run consisting of a successful
upload followed by a manual left rotation produces the status sequence
ready, processing, success, processing, success, whose success-to-
processing step (with no reset in between) is not a transition of the
state machine the claim asserts. -/
theorem c6_state_machine_counterexample :
    (traceFrom initAppState
        [Ev.upload (some pageImage), Ev.rotate Direction.left]).map Prod.fst =
      [Status.ready, Status.processing, Status.success,
        Status.processing, Status.success] ∧
    chainOK claimAllowedC6 initAppState.status
      ((traceFrom initAppState
        [Ev.upload (some pageImage), Ev.rotate Direction.left]).map Prod.fst) = false :=
  ⟨rfl, rfl⟩

/-- Claim C6 amended: the observed status only transitions along ready to
processing to success or error, with success or error returning to ready
only through a reset write, except that the manual rotate operation on
an existing processed image additionally transitions success to
processing and back to success without any reset. -/
theorem c6_state_machine_amended (evs : List Ev) :
    chainOK extAllowedC6 initAppState.status
      ((traceFrom initAppState evs).map Prod.fst) = true ∧
    readyOnlyByReset (traceFrom initAppState evs) = true :=
  traceFrom_ok evs initAppState (fun h => nomatch h) (Or.inl rfl)
